import Mathlib

/-!
Verification of the go-starter HTTP gatekeeper core: the per-IP token-bucket
rate limiter (internal/middleware, backed by golang.org/x/time/rate), the JWT
issue/validate pair (internal/services AuthService, backed by golang-jwt/v5),
client identity resolution, the database startup ping-with-retry loop, the
health/readiness handlers, and the auth handler's error responses.

Time is modelled in seconds as rationals; Go's float64 token counts are
modelled as rationals; Go ints are modelled as integers.
-/

namespace GoStarter

/-! ## Token bucket (golang.org/x/time/rate `Limiter`, as used by the
    RateLimiter in internal/middleware) -/

/-- State of one `rate.Limiter`: `limit` is the refill rate in tokens/second
(Go `rate.Limit`, a float64), `burst` the bucket size (Go int), `tokens` the
current token count (float64), `last` the time of the last state update.
`rate.NewLimiter(r, b)` leaves `tokens` and `last` at their zero values. -/
structure Limiter where
  limit : ℚ
  burst : ℤ
  tokens : ℚ
  last : ℚ
  deriving Repr, DecidableEq

/-- Limiter.advance: tokens accumulated by time `t`: the elapsed time since
`last` (clamped so that a past `t` contributes nothing) times the rate, added
to the stored tokens and capped at `burst`. -/
def Limiter.advance (lim : Limiter) (t : ℚ) : ℚ :=
  let last := if t < lim.last then t else lim.last
  min (lim.tokens + lim.limit * (t - last)) (lim.burst : ℚ)

/-- Limiter.reserveN with n = 1, returning (ok, waitDuration, updated state).
`maxFutureReserve` is `some 0` for `Allow` and `none` (InfDuration) for
`Reserve`.  Mirrors x/time/rate `reserveN`: the `limit == 0` special case
consumes from `burst` itself; otherwise tokens are advanced, one is taken,
the wait for the deficit is computed, and the state is committed only when
the reservation is ok.  (`limit == Inf` cannot arise: the middleware always
passes the finite `rate.Limit(rps)`.  The `lastEvent` bookkeeping is not
carried: for the reservations made here it always equals the reservation's
own `timeToAct`, see `Limiter.cancelOwn`.) -/
def Limiter.reserveN1 (lim : Limiter) (t : ℚ) (maxFutureReserve : Option ℚ) :
    Bool × ℚ × Limiter :=
  if lim.limit = 0 then
    if 1 ≤ lim.burst then (true, 0, { lim with burst := lim.burst - 1 })
    else (false, 0, lim)
  else
    let tokens := lim.advance t - 1
    let waitDuration := if tokens < 0 then -tokens / lim.limit else 0
    let ok := decide (1 ≤ lim.burst) &&
      (match maxFutureReserve with
       | none => true
       | some m => decide (waitDuration ≤ m))
    if ok then (true, waitDuration, { lim with tokens := tokens, last := t })
    else (false, waitDuration, lim)

/-- Limiter.Allow: reserve one token with no willingness to wait. -/
def Limiter.allow (lim : Limiter) (t : ℚ) : Bool × Limiter :=
  let r := lim.reserveN1 t (some 0)
  (r.1, r.2.2)

/-- Reservation.CancelAt for a reservation just made at time `t` on this
limiter: `restoreTokens = 1 - tokensFromDuration(lastEvent - timeToAct) = 1`
because the reservation being cancelled is the most recent event, so the
consumed token is restored (capped at burst) and `last` moves to `t`. -/
def Limiter.cancelOwn (lim : Limiter) (t : ℚ) : Limiter :=
  { lim with tokens := min (lim.advance t + 1) (lim.burst : ℚ), last := t }

/-- Run a sequence of Allow calls at the given times, collecting results. -/
def allowSeq (lim : Limiter) : List ℚ → List Bool × Limiter
  | [] => ([], lim)
  | t :: ts =>
    let r := lim.allow t
    let rest := allowSeq r.2 ts
    (r.1 :: rest.1, rest.2)

/-! ## RateLimiter (internal/middleware): per-IP map of limiters -/

/-- RateLimiter: the identity→bucket map (modelled as an association list)
plus the configured rps and burst (Go ints). -/
structure RateLimiter where
  limiters : List (String × Limiter)
  rps : ℤ
  burst : ℤ

/-- NewRateLimiter creates an empty map with the given configuration. -/
def NewRateLimiter (rps burst : ℤ) : RateLimiter :=
  { limiters := [], rps := rps, burst := burst }

/-- RateLimiter.getLimiter: return the bucket for `ip`, lazily creating
`rate.NewLimiter(rate.Limit(rl.rps), rl.burst)` (zero tokens, zero last,
which fill to `burst` on first use) when absent. -/
def RateLimiter.getLimiter (rl : RateLimiter) (ip : String) :
    Limiter × RateLimiter :=
  match rl.limiters.lookup ip with
  | some l => (l, rl)
  | none =>
    let l : Limiter := ⟨(rl.rps : ℚ), rl.burst, 0, 0⟩
    (l, { rl with limiters := (ip, l) :: rl.limiters })

/-! ## RateLimitMiddleware denial response (internal/middleware) -/

/-- Value carried in the Retry-After header: the literal "60" (in seconds,
set when the fallback reservation is not ok) or `delay.String()` of the
computed wait (a Go duration string). -/
inductive RetryAfterValue
  | seconds (n : ℕ)
  | durationStr (d : ℚ)
  deriving Repr, DecidableEq

/-- The response written when the middleware denies a request. -/
structure RateLimitResponse where
  status : ℕ
  contentType : String
  body : String
  retryAfter : RetryAfterValue
  deriving Repr, DecidableEq

/-- Exact bytes written on denial. -/
def rateLimitBody : String :=
  "\x7b\"error\":\"too many requests\",\"message\":\"rate limit exceeded\"\x7d"

/-- One request through RateLimitMiddleware for an already-resolved bucket:
consult Allow; on denial compute the Retry-After value from a Reserve that is
immediately cancelled, then write the 429 response.  Returns the response
written (none when the request is forwarded) and the bucket state left
behind. -/
def rateLimitCheck (lim : Limiter) (t : ℚ) :
    Option RateLimitResponse × Limiter :=
  let a := lim.allow t
  if a.1 then (none, a.2)
  else
    let r := a.2.reserveN1 t none
    if r.1 then
      (some { status := 429, contentType := "application/json",
              body := rateLimitBody, retryAfter := .durationStr r.2.1 },
       r.2.2.cancelOwn t)
    else
      -- Reservation.Cancel on a not-ok reservation is a no-op
      (some { status := 429, contentType := "application/json",
              body := rateLimitBody, retryAfter := .seconds 60 },
       r.2.2)

/-! ## Client identity resolution (getClientIP, internal/middleware) -/

/-- The request data getClientIP consults; `Header.Get` yields "" when a
header is absent. -/
structure HttpRequest where
  xForwardedFor : String
  xRealIP : String
  remoteAddr : String
  deriving Repr, DecidableEq

/-- getClientIP: X-Forwarded-For if non-empty (returned whole, without
splitting at commas), else X-Real-IP if non-empty, else RemoteAddr. -/
def getClientIP (r : HttpRequest) : String :=
  if r.xForwardedFor ≠ "" then r.xForwardedFor
  else if r.xRealIP ≠ "" then r.xRealIP
  else r.remoteAddr

/-! ## JWT issue/validate (AuthService, internal/services, via golang-jwt/v5) -/

/-- JSON values as produced by encoding/json into a generic map: numbers
decode as float64, modelled as rationals. -/
inductive Json
  | num (q : ℚ)
  | str (s : String)
  | boolean (b : Bool)
  | null
  deriving Repr, DecidableEq

/-- A structurally well-formed JWT: the header algorithm, the decoded payload
claims, and the signature segment.  A signature is modelled as the data an
HMAC tag binds — the algorithm, the key, and the signed content
(header and payload) — with `none` standing for a signature that is no valid
tag of anything (e.g. altered bytes).  This models HMAC as a perfect MAC:
a tag verifies under algorithm `a`, key `k`, content `c` exactly when it is
`some (a, k, c)`. -/
structure JwtToken where
  alg : String
  claims : List (String × Json)
  sig : Option (String × String × List (String × Json))
  deriving Repr, DecidableEq

/-- Input to validation: either not decodable as a JWT at all (wrong number
of segments, bad base64, bad JSON — jwt/v5 ErrTokenMalformed) or a
well-formed token. -/
inductive TokenInput
  | malformed
  | wellFormed (t : JwtToken)
  deriving Repr, DecidableEq

/-- The HMAC family of signing algorithms (the jwt.SigningMethodHMAC
instances registered by golang-jwt). -/
def hmacAlgs : List String := ["HS256", "HS384", "HS512"]

/-- Claim-validation errors from the jwt/v5 default validator. -/
inductive ClaimErr
  | expired                     -- jwt.ErrTokenExpired
  | notValidBefore              -- jwt.ErrTokenNotValidBefore
  | invalidType (key : String)  -- jwt.ErrInvalidType: claim has a non-numeric value
  deriving Repr, DecidableEq

/-- Result of jwt/v5 MapClaims.parseNumericDate: claim absent, or a date, or
present with a non-numeric type.  A numeric zero is treated as absent. -/
inductive NumDateRes
  | absent
  | date (q : ℚ)
  | badType
  deriving Repr, DecidableEq

/-- parseNumericDate on the decoded claims map. -/
def parseNumericDate (claims : List (String × Json)) (key : String) :
    NumDateRes :=
  match claims.lookup key with
  | none => .absent
  | some (.num q) => if q = 0 then .absent else .date q
  | some _ => .badType

/-- The jwt/v5 default validator on MapClaims (leeway 0, exp not required,
iat not verified): collect errors from `exp` (expired unless now is before
exp) and `nbf` (not yet valid unless nbf is at or before now). -/
def validateClaims (now : ℚ) (claims : List (String × Json)) :
    List ClaimErr :=
  (match parseNumericDate claims "exp" with
   | .absent => []
   | .date q => if now < q then [] else [.expired]
   | .badType => [.invalidType "exp"]) ++
  (match parseNumericDate claims "nbf" with
   | .absent => []
   | .date q => if q ≤ now then [] else [.notValidBefore]
   | .badType => [.invalidType "nbf"])

/-- Errors out of jwt/v5 Parse, as wrapped by ValidateToken's
"failed to parse token: %w". -/
inductive JwtErr
  | malformed                       -- jwt.ErrTokenMalformed
  | unverifiable (alg : String)     -- jwt.ErrTokenUnverifiable: unregistered algorithm, or the keyfunc rejecting a non-HMAC method
  | signatureInvalid                -- jwt.ErrTokenSignatureInvalid
  | invalidClaims (errs : List ClaimErr)  -- jwt.ErrTokenInvalidClaims joined with the claim errors
  deriving Repr, DecidableEq

/-- jwt.Parse with AuthService's keyfunc: reject structurally invalid input;
reject any token whose header algorithm is outside the HMAC family (the
keyfunc's `token.Method.(*jwt.SigningMethodHMAC)` check; an unregistered
algorithm fails one step earlier with the same ErrTokenUnverifiable class);
verify the HMAC tag over the token's content with the server secret; finally
run the default claims validator. -/
def jwtParse (secret : String) (now : ℚ) :
    TokenInput → Except JwtErr (List (String × Json))
  | .malformed => .error .malformed
  | .wellFormed t =>
    if t.alg ∈ hmacAlgs then
      if t.sig = some (t.alg, secret, t.claims) then
        match validateClaims now t.claims with
        | [] => .ok t.claims
        | e :: es => .error (.invalidClaims (e :: es))
      else .error .signatureInvalid
    else .error (.unverifiable t.alg)

/-- Go float64-to-int conversion: truncation toward zero. -/
def ratTrunc (q : ℚ) : ℤ :=
  Int.tdiv q.num (q.den : ℤ)

/-- Failure modes of AuthService.ValidateToken.  The Go branches returning
"invalid token" and "invalid token claims" are unreachable: jwt/v5 Parse sets
token.Valid exactly when it returns no error, and with the plain Parse entry
point the claims are always a MapClaims. -/
inductive ValidateErr
  | failedParse (e : JwtErr)   -- "failed to parse token: %w"
  | invalidSubject             -- "invalid token subject": sub absent or not a number
  deriving Repr, DecidableEq

/-- AuthService.ValidateToken: parse and verify the token, then extract the
user id from the `sub` claim (`claims["sub"].(float64)` followed by an int
conversion). -/
def ValidateToken (secret : String) (now : ℚ) (input : TokenInput) :
    Except ValidateErr ℤ :=
  match jwtParse secret now input with
  | .error e => .error (.failedParse e)
  | .ok claims =>
    match claims.lookup "sub" with
    | some (.num q) => .ok (ratTrunc q)
    | _ => .error .invalidSubject

/-- AuthService.generateToken: claims {sub = userID, iat = now,
exp = now + 24h} signed with HS256 under the service secret; `now` is Unix
seconds.  (`SignedString` cannot fail for an HMAC method with a byte-slice
key, so the error branch is dead.) -/
def generateToken (secret : String) (userID : ℤ) (now : ℤ) : JwtToken :=
  let claims : List (String × Json) :=
    [("sub", .num (userID : ℚ)), ("iat", .num (now : ℚ)),
     ("exp", .num ((now : ℚ) + 24 * 3600))]
  { alg := "HS256", claims := claims, sig := some ("HS256", secret, claims) }

/-! ## Startup ping with retry (pkg/database New/pingWithRetry) -/

/-- Outcome of the retry loop. -/
inductive PingOutcome
  | success      -- a ping returned nil
  | ctxDone      -- ctx.Done() fired during the backoff sleep: ctx.Err()
  | exhausted    -- all retries used: the last ping error
  deriving Repr, DecidableEq

/-- The loop of pingWithRetry: attempt number `i` (0-based) runs at time `t`;
on failure the loop sleeps `i+1` seconds unless the context deadline expires
first (the select on ctx.Done() versus time.After).  `ping i` tells whether
attempt `i` succeeds.  Returns the attempt times and the outcome. -/
def pingRetryGo (ping : ℕ → Bool) (deadline : ℚ) :
    (remaining : ℕ) → (i : ℕ) → (t : ℚ) → List ℚ × PingOutcome
  | 0, _, _ => ([], .exhausted)
  | r + 1, i, t =>
    if ping i then ([t], .success)
    else
      let wake := t + ((i : ℚ) + 1)
      if deadline ≤ wake then ([t], .ctxDone)
      else
        let rest := pingRetryGo ping deadline r (i + 1) wake
        (t :: rest.1, rest.2)

/-- pingWithRetry as called from database.New: 5 retries inside a context
with a 10 second timeout, starting at time 0. -/
def pingWithRetry (ping : ℕ → Bool) : List ℚ × PingOutcome :=
  pingRetryGo ping 10 5 0 0

/-- database.New: when the retry loop does not succeed, the connection is
closed and a "failed to ping database" error is returned; main treats it as
fatal (logger.Fatal aborts startup). -/
def databaseNew (ping : ℕ → Bool) : Except String Unit :=
  match (pingWithRetry ping).2 with
  | .success => .ok ()
  | .ctxDone => .error "failed to ping database"
  | .exhausted => .error "failed to ping database"

/-! ## Health handlers (internal/handlers HealthHandler) -/

/-- Body of a health response. -/
structure HealthResponse where
  status : String
  database : String
  deriving Repr, DecidableEq

/-- Full health response: status code, Content-Type header, JSON body. -/
structure HealthHttpResponse where
  statusCode : ℕ
  contentType : String
  body : HealthResponse
  deriving Repr, DecidableEq

/-- HealthHandler.Healthz: starts from 200 with status "ok"; when
db.Health(ctx) errors both body fields become "unhealthy" and the code 503.
`dbErr` is whether the database health check failed. -/
def Healthz (dbErr : Bool) : HealthHttpResponse :=
  if dbErr then
    { statusCode := 503, contentType := "application/json",
      body := { status := "unhealthy", database := "unhealthy" } }
  else
    { statusCode := 200, contentType := "application/json",
      body := { status := "ok", database := "ok" } }

/-- HealthHandler.Ready: delegates to Healthz unchanged. -/
def Ready (dbErr : Bool) : HealthHttpResponse :=
  Healthz dbErr

/-! ## Auth handler error responses (internal/handlers AuthHandler.Register,
    respondWithError) -/

/-- JSON error body (models.ErrorResponse). -/
structure ErrorResponse where
  error : String
  message : String
  deriving Repr, DecidableEq

/-- What an error response produces: the HTTP response and the log record
respondWithError emits (message plus the zap.Error field holding the internal
error text). -/
structure HandlerErrOut where
  status : ℕ
  body : ErrorResponse
  logMsg : String
  logErr : String
  deriving Repr, DecidableEq

/-- respondWithError (auth_handler.go): log the message and the internal
error, then write `status` with body error = message and
message = err.Error(). -/
def respondWithError (code : ℕ) (message : String) (errMsg : String) :
    HandlerErrOut :=
  { status := code, body := { error := message, message := errMsg },
    logMsg := message, logErr := errMsg }

/-- Outcome of userRepo.GetByEmail as seen by AuthService.Register. -/
inductive GetByEmailRes
  | found                  -- a user with that email exists
  | notFound               -- repositories.ErrUserNotFound
  | dbErr (msg : String)   -- any other database error, msg is its Error() text
  deriving Repr, DecidableEq

/-- Outcome of userRepo.Create. -/
inductive CreateRes
  | created
  | alreadyExists          -- repositories.ErrUserAlreadyExists
  | dbErr (msg : String)   -- any other database error
  deriving Repr, DecidableEq

/-- Error of AuthService.Register: the sentinel services.ErrUserExists, or a
fmt.Errorf-wrapped internal error whose Error() text is carried. -/
inductive RegisterErr
  | userExists
  | wrapped (msg : String)
  deriving Repr, DecidableEq

/-- Error() text of a Register error. -/
def RegisterErr.text : RegisterErr → String
  | .userExists => "user already exists"
  | .wrapped m => m

/-- AuthService.Register, parametrized by the collaborator outcomes: check
for an existing user, hash the password (bcrypt may fail), create the user.
`none` is the success path (a token is then generated; HMAC signing cannot
fail). -/
def serviceRegister (getByEmail : GetByEmailRes)
    (hashRes : Except String Unit) (createRes : CreateRes) :
    Option RegisterErr :=
  match getByEmail with
  | .dbErr e => some (.wrapped ("failed to check existing user: " ++ e))
  | .found => some .userExists
  | .notFound =>
    match hashRes with
    | .error e => some (.wrapped ("failed to hash password: " ++ e))
    | .ok _ =>
      match createRes with
      | .alreadyExists => some .userExists
      | .dbErr e => some (.wrapped ("failed to create user: " ++ e))
      | .created => none

/-- How AuthHandler.Register reached its error response: body decode failure,
struct validation failure, or the service call (both with the triggering
error's text). -/
inductive RegisterInput
  | badBody (decodeErr : String)
  | invalid (validationErr : String)
  | validRequest
  deriving Repr, DecidableEq

/-- AuthHandler.Register error paths: 400 for decode/validation failures,
409 for services.ErrUserExists, 500 for any other service error; `none` is
the 201 success response. -/
def handlerRegister (input : RegisterInput) (getByEmail : GetByEmailRes)
    (hashRes : Except String Unit) (createRes : CreateRes) :
    Option HandlerErrOut :=
  match input with
  | .badBody e => some (respondWithError 400 "invalid request body" e)
  | .invalid e => some (respondWithError 400 "validation failed" e)
  | .validRequest =>
    match serviceRegister getByEmail hashRes createRes with
    | some .userExists =>
      some (respondWithError 409 "user already exists"
        RegisterErr.userExists.text)
    | some (.wrapped m) =>
      some (respondWithError 500 "failed to register user"
        (RegisterErr.wrapped m).text)
    | none => none

/-! ## Spec-side definitions (written from the spec's words, for comparison
    with the code model) -/

/-- Spec classification: errors of the MalformedToken class ("structurally
invalid input"), i.e. errors.Is(err, jwt.ErrTokenMalformed). -/
def isMalformedClass (e : ValidateErr) : Prop :=
  e = .failedParse .malformed

/-- Spec classification: errors of the BadSignature class ("signature
mismatch or wrong algorithm").  A wrong algorithm surfaces as
ErrTokenUnverifiable, a mismatching tag as ErrTokenSignatureInvalid. -/
def isBadSignatureClass (e : ValidateErr) : Prop :=
  (∃ a, e = .failedParse (.unverifiable a)) ∨ e = .failedParse .signatureInvalid

/-- Spec classification: errors of the Expired class ("exp ≤ now"), i.e.
errors.Is(err, jwt.ErrTokenExpired): the joined claim errors contain the
expiry error. -/
def isExpiredClass (e : ValidateErr) : Prop :=
  ∃ errs, e = .failedParse (.invalidClaims errs) ∧ ClaimErr.expired ∈ errs

/-- Spec classification: errors of the MissingSubject class ("sub claim
absent or wrong type"). -/
def isMissingSubjectClass (e : ValidateErr) : Prop :=
  e = .invalidSubject

/-- Amended classification of validation failures: the four spec classes
plus the invalid-claims class for tokens whose `exp`/`nbf` claims are
non-numeric or whose `nbf` lies in the future.  Each disjunct records the
exact condition under which its class is produced; the invalid-claims
disjunct also characterizes when the failure belongs to the Expired class. -/
def validateFailureClassified (secret : String) (now : ℚ)
    (input : TokenInput) (e : ValidateErr) : Prop :=
  (input = .malformed ∧ e = .failedParse .malformed) ∨
  (∃ t, input = .wellFormed t ∧ t.alg ∉ hmacAlgs ∧
    e = .failedParse (.unverifiable t.alg)) ∨
  (∃ t, input = .wellFormed t ∧ t.alg ∈ hmacAlgs ∧
    t.sig ≠ some (t.alg, secret, t.claims) ∧
    e = .failedParse .signatureInvalid) ∨
  (∃ t, input = .wellFormed t ∧ t.alg ∈ hmacAlgs ∧
    t.sig = some (t.alg, secret, t.claims) ∧
    validateClaims now t.claims ≠ [] ∧
    e = .failedParse (.invalidClaims (validateClaims now t.claims)) ∧
    (ClaimErr.expired ∈ validateClaims now t.claims ↔
      ∃ q, parseNumericDate t.claims "exp" = .date q ∧ q ≤ now)) ∨
  (∃ t, input = .wellFormed t ∧ t.alg ∈ hmacAlgs ∧
    t.sig = some (t.alg, secret, t.claims) ∧
    validateClaims now t.claims = [] ∧
    (∀ q, t.claims.lookup "sub" ≠ some (.num q)) ∧
    e = .invalidSubject)

/-- The short machine-readable reasons the Register path can put in the
`error` field of an error body. -/
def registerReasons : List String :=
  ["invalid request body", "validation failed", "user already exists",
   "failed to register user"]

/-! # Theorems -/

/-! ## Limiter lemmas -/

/-- Advance with the clock not running backwards. -/
theorem advance_of_last_le (lim : Limiter) (t : ℚ) (h : lim.last ≤ t) :
    lim.advance t
      = min (lim.tokens + lim.limit * (t - lim.last)) (lim.burst : ℚ) := by
  unfold Limiter.advance
  rw [if_neg (not_lt.mpr h)]

/-- Unfolding lemma for a run of Allow calls. -/
theorem allowSeq_cons (lim : Limiter) (t : ℚ) (ts : List ℚ) :
    allowSeq lim (t :: ts)
      = ((lim.allow t).1 :: (allowSeq (lim.allow t).2 ts).1,
         (allowSeq (lim.allow t).2 ts).2) := rfl

/-- Allow succeeds when at least one token is available, and consumes it. -/
theorem allow_succeeds (lim : Limiter) (t : ℚ)
    (hne : lim.limit ≠ 0) (hb : 1 ≤ lim.burst) (htok : 1 ≤ lim.advance t) :
    lim.allow t
      = (true, { lim with tokens := lim.advance t - 1, last := t }) := by
  have h1 : ¬ (lim.advance t - 1 < 0) := by linarith
  simp only [Limiter.allow, Limiter.reserveN1, if_neg hne, h1, if_false]
  simp [hb]

/-- Allow fails when less than one token is available, leaving the state
unchanged. -/
theorem allow_fails (lim : Limiter) (t : ℚ)
    (hpos : 0 < lim.limit) (htok : lim.advance t < 1) :
    lim.allow t = (false, lim) := by
  have hne : lim.limit ≠ 0 := ne_of_gt hpos
  have h1 : lim.advance t - 1 < 0 := by linarith
  have h2 : ¬ ((1 - lim.advance t) / lim.limit ≤ 0) := by
    have := div_pos (show 0 < 1 - lim.advance t by linarith) hpos
    linarith
  simp only [Limiter.allow, Limiter.reserveN1, if_neg hne, h1, if_true]
  simp [h2]

/-- A chain of inequalities may start lower. -/
theorem chain_le_weaken {a b : ℚ} {l : List ℚ} (h : a ≤ b)
    (hc : List.Chain (· ≤ ·) b l) : List.Chain (· ≤ ·) a l := by
  cases l with
  | nil => exact List.Chain.nil
  | cons c l =>
    rw [List.chain_cons] at hc ⊢
    exact ⟨le_trans h hc.1, hc.2⟩

/-- Invariant run: starting from a bucket that was filled at the first call
time `t1` and has since served `k` admissions, with all calls inside one
refill period (less than one token accrues over the whole window), the next
calls succeed until the bucket is drained and fail afterwards. -/
theorem allowSeq_window_aux (rps burst : ℤ) (hr : 0 < rps) (t1 : ℚ)
    (ts : List ℚ) :
    ∀ (k : ℕ) (tp : ℚ), 1 ≤ k → (k : ℤ) ≤ burst →
      t1 ≤ tp → (tp - t1) * (rps : ℚ) < 1 →
      List.Chain (· ≤ ·) tp ts →
      (∀ t ∈ ts, (t - t1) * (rps : ℚ) < 1) →
      (allowSeq
          ⟨(rps : ℚ), burst, (burst : ℚ) - (k : ℚ) + (tp - t1) * (rps : ℚ), tp⟩
          ts).1
        = List.replicate (min ts.length (burst.toNat - k)) true
          ++ List.replicate (ts.length - (burst.toNat - k)) false := by
  induction ts with
  | nil =>
    intro k tp _ _ _ _ _ _
    simp [allowSeq]
  | cons t ts ih =>
    intro k tp hk1 hkb htp1 hwp hchain hwin
    rw [List.chain_cons] at hchain
    obtain ⟨htpt, hchain2⟩ := hchain
    have hwt : (t - t1) * (rps : ℚ) < 1 := hwin t (List.mem_cons_self t ts)
    have ht1t : t1 ≤ t := le_trans htp1 htpt
    have hRpos : (0 : ℚ) < (rps : ℚ) := by exact_mod_cast hr
    have hk1Q : (1 : ℚ) ≤ (k : ℚ) := by exact_mod_cast hk1
    have hnn : 0 ≤ (t - t1) * (rps : ℚ) := mul_nonneg (by linarith) hRpos.le
    have hb1 : (1 : ℤ) ≤ burst := by omega
    have hadv :
        (⟨(rps : ℚ), burst,
            (burst : ℚ) - (k : ℚ) + (tp - t1) * (rps : ℚ), tp⟩ :
          Limiter).advance t
          = (burst : ℚ) - (k : ℚ) + (t - t1) * (rps : ℚ) := by
      rw [advance_of_last_le _ _ htpt]
      show min
          (((burst : ℚ) - (k : ℚ) + (tp - t1) * (rps : ℚ))
            + (rps : ℚ) * (t - tp)) ((burst : ℤ) : ℚ) = _
      have harith :
          ((burst : ℚ) - (k : ℚ) + (tp - t1) * (rps : ℚ))
            + (rps : ℚ) * (t - tp)
          = (burst : ℚ) - (k : ℚ) + (t - t1) * (rps : ℚ) := by ring
      rw [harith, min_eq_left (by linarith)]
    by_cases hkB : (k : ℤ) < burst
    · -- one more token is available: this call succeeds
      have hk1B : (k : ℚ) + 1 ≤ (burst : ℚ) := by
        exact_mod_cast (by omega : (k : ℤ) + 1 ≤ burst)
      have htok :
          (1 : ℚ) ≤ (⟨(rps : ℚ), burst,
            (burst : ℚ) - (k : ℚ) + (tp - t1) * (rps : ℚ), tp⟩ :
              Limiter).advance t := by
        rw [hadv]; linarith
      rw [allowSeq_cons, allow_succeeds _ _ (ne_of_gt hRpos) hb1 htok]
      dsimp only
      rw [hadv]
      have hstate :
          (burst : ℚ) - (k : ℚ) + (t - t1) * (rps : ℚ) - 1
            = (burst : ℚ) - ((k + 1 : ℕ) : ℚ) + (t - t1) * (rps : ℚ) := by
        push_cast; ring
      rw [hstate]
      rw [ih (k + 1) t (by omega) (by exact_mod_cast hk1B) ht1t hwt hchain2
        (fun u hu => hwin u (List.mem_cons_of_mem _ hu))]
      have e1 : min (ts.length + 1) (burst.toNat - k)
          = min ts.length (burst.toNat - (k + 1)) + 1 := by omega
      have e2 : ts.length + 1 - (burst.toNat - k)
          = ts.length - (burst.toNat - (k + 1)) := by omega
      simp only [List.length_cons, e1, e2, List.replicate_succ,
        List.cons_append]
    · -- the bucket is drained: this call fails and changes nothing
      have hk_eq : (k : ℤ) = burst := le_antisymm hkb (not_lt.mp hkB)
      have hkQ : (k : ℚ) = (burst : ℚ) := by exact_mod_cast hk_eq
      have htok :
          (⟨(rps : ℚ), burst,
            (burst : ℚ) - (k : ℚ) + (tp - t1) * (rps : ℚ), tp⟩ :
              Limiter).advance t < 1 := by
        rw [hadv, hkQ]; linarith
      rw [allowSeq_cons, allow_fails _ _ hRpos htok]
      dsimp only
      rw [ih k tp hk1 hkb htp1 hwp (chain_le_weaken htpt hchain2)
        (fun u hu => hwin u (List.mem_cons_of_mem _ hu))]
      have hzero : burst.toNat - k = 0 := by omega
      simp [hzero, List.replicate_succ]

/-- A freshly created limiter (zero stored tokens, zero last-update time)
fills to its full burst on first use once enough wall-clock time has passed
(the process observes times `t1` with `rps * t1 ≥ burst`), and the first
call consumes one token. -/
theorem allow_first_fill (rps burst : ℤ) (hr : 0 < rps) (hb : 0 < burst)
    (t1 : ℚ) (hfill : (burst : ℚ) ≤ (rps : ℚ) * t1) :
    (⟨(rps : ℚ), burst, 0, 0⟩ : Limiter).allow t1
      = (true, ⟨(rps : ℚ), burst, (burst : ℚ) - 1, t1⟩) := by
  have hRpos : (0 : ℚ) < (rps : ℚ) := by exact_mod_cast hr
  have hBposQ : (0 : ℚ) < (burst : ℚ) := by exact_mod_cast hb
  have ht1 : (0 : ℚ) ≤ t1 := by nlinarith
  have hadv : (⟨(rps : ℚ), burst, 0, 0⟩ : Limiter).advance t1
      = (burst : ℚ) := by
    rw [advance_of_last_le _ _ ht1]
    show min ((0 : ℚ) + (rps : ℚ) * (t1 - 0)) ((burst : ℤ) : ℚ) = _
    rw [show (0 : ℚ) + (rps : ℚ) * (t1 - 0) = (rps : ℚ) * t1 by ring,
      min_eq_right hfill]
  have hB1 : (1 : ℤ) ≤ burst := hb
  have htok : (1 : ℚ) ≤ (⟨(rps : ℚ), burst, 0, 0⟩ : Limiter).advance t1 := by
    rw [hadv]; exact_mod_cast hB1
  rw [allow_succeeds _ _ (ne_of_gt hRpos) hB1 htok, hadv]

/-- Full characterization of a burst of Allow calls on a fresh bucket inside
one refill period: writing B for the burst, the first min(calls, B) calls
return true and every further call returns false. -/
theorem allowSeq_full_window (rps burst : ℤ) (hr : 0 < rps) (hb : 0 < burst)
    (t1 : ℚ) (hfill : (burst : ℚ) ≤ (rps : ℚ) * t1) (rest : List ℚ)
    (hchain : List.Chain (· ≤ ·) t1 rest)
    (hwin : ∀ t ∈ rest, (t - t1) * (rps : ℚ) < 1) :
    (allowSeq ⟨(rps : ℚ), burst, 0, 0⟩ (t1 :: rest)).1
      = List.replicate (min (rest.length + 1) burst.toNat) true
        ++ List.replicate (rest.length + 1 - burst.toNat) false := by
  rw [allowSeq_cons, allow_first_fill rps burst hr hb t1 hfill]
  dsimp only
  have hstate : (burst : ℚ) - 1
      = (burst : ℚ) - ((1 : ℕ) : ℚ) + (t1 - t1) * (rps : ℚ) := by
    push_cast; ring
  rw [hstate]
  rw [allowSeq_window_aux rps burst hr t1 rest 1 t1 le_rfl (by omega) le_rfl
    (by rw [show (t1 - t1) * (rps : ℚ) = 0 by ring]; norm_num) hchain hwin]
  have e1 : min (rest.length + 1) burst.toNat
      = min rest.length (burst.toNat - 1) + 1 := by omega
  have e2 : rest.length + 1 - burst.toNat
      = rest.length - (burst.toNat - 1) := by omega
  rw [e1, e2, List.replicate_succ, List.cons_append]

/-- A chain of equal times is monotone. -/
theorem chain_le_of_all_eq (t : ℚ) (l : List ℚ) (h : ∀ u ∈ l, u = t) :
    List.Chain (· ≤ ·) t l := by
  induction l with
  | nil => exact List.Chain.nil
  | cons u l ih =>
    rw [List.chain_cons]
    have hu : u = t := h u (List.mem_cons_self u l)
    refine ⟨le_of_eq hu.symm, ?_⟩
    rw [hu]
    exact ih (fun v hv => h v (List.mem_cons_of_mem _ hv))

/-! ## Claim theorems: rate limiting -/

/-- C1: starting from a freshly created bucket (capacity = burst, refill =
rps tokens/sec, created lazily by getLimiter), consecutive Allow calls all
lying within one refill period (strictly less than one token's worth of time
after the first call) succeed as long as tokens remain and fail afterwards:
with B the burst, a run of M calls returns min(M, B) times true followed by
only false.  In particular every run of N ≤ B calls succeeds entirely and
call B+1 returns false. -/
theorem C1_burst_then_deny (rps burst : ℤ) (ip : String) (t1 : ℚ)
    (rest : List ℚ) (hr : 0 < rps) (hb : 0 < burst)
    (hfill : (burst : ℚ) ≤ (rps : ℚ) * t1)
    (hchain : List.Chain (· ≤ ·) t1 rest)
    (hwin : ∀ t ∈ rest, (t - t1) * (rps : ℚ) < 1) :
    (allowSeq ((NewRateLimiter rps burst).getLimiter ip).1 (t1 :: rest)).1
      = List.replicate (min (rest.length + 1) burst.toNat) true
        ++ List.replicate (rest.length + 1 - burst.toNat) false := by
  have hfresh : ((NewRateLimiter rps burst).getLimiter ip).1
      = ⟨(rps : ℚ), burst, 0, 0⟩ := rfl
  rw [hfresh]
  exact allowSeq_full_window rps burst hr hb t1 hfill rest hchain hwin

/-- Witness for C1: rps = 1, burst = 2, three calls at time 2: the first two
succeed and the third fails. -/
theorem C1_burst_then_deny_witness :
    (allowSeq ((NewRateLimiter 1 2).getLimiter "198.51.100.7").1
        [2, 2, 2]).1
      = [true, true, false] := by
  have h := C1_burst_then_deny 1 2 "198.51.100.7" 2 [2, 2]
    (by norm_num) (by norm_num) (by norm_num)
    (chain_le_of_all_eq 2 [2, 2] (by intro u hu; simpa using hu))
    (by intro u hu; simp at hu; simp [hu])
  simpa using h

/-- C9: any serialized order of M simultaneous Allow calls for one identity
(the per-limiter mutex serializes concurrent callers) on a full bucket of
capacity C = burst admits exactly min(M, C) and denies the remaining
M - min(M, C), so the admitted count never exceeds C. -/
theorem C9_concurrent_allow (rps burst : ℤ) (ip : String) (M : ℕ) (t : ℚ)
    (ts : List ℚ) (hr : 0 < rps) (hb : 0 < burst)
    (hfill : (burst : ℚ) ≤ (rps : ℚ) * t)
    (hlen : ts.length = M) (hts : ∀ u ∈ ts, u = t) :
    (allowSeq ((NewRateLimiter rps burst).getLimiter ip).1 ts).1.count true
        = min M burst.toNat ∧
      (allowSeq ((NewRateLimiter rps burst).getLimiter ip).1 ts).1.count false
        = M - burst.toNat := by
  have hfresh : ((NewRateLimiter rps burst).getLimiter ip).1
      = ⟨(rps : ℚ), burst, 0, 0⟩ := rfl
  rw [hfresh]
  cases ts with
  | nil =>
    simp [allowSeq, ← hlen]
  | cons u us =>
    have hu : u = t := hts u (List.mem_cons_self u us)
    subst hu
    have hrun := allowSeq_full_window rps burst hr hb u hfill us
      (chain_le_of_all_eq u us (fun v hv => hts v (List.mem_cons_of_mem _ hv)))
      (by
        intro v hv
        have hv2 : v = u := hts v (List.mem_cons_of_mem _ hv)
        rw [hv2, show (u - u) * (rps : ℚ) = 0 by ring]
        norm_num)
    rw [hrun]
    have hM : us.length + 1 = M := by simpa using hlen
    rw [hM]
    constructor
    · simp [List.count_append, List.count_replicate]
    · simp [List.count_append, List.count_replicate]

/-- Witness for C9: three simultaneous calls against capacity 2 admit
exactly two and deny one. -/
theorem C9_concurrent_allow_witness :
    (allowSeq ((NewRateLimiter 1 2).getLimiter "203.0.113.9").1
        [5, 5, 5]).1.count true = 2 ∧
      (allowSeq ((NewRateLimiter 1 2).getLimiter "203.0.113.9").1
        [5, 5, 5]).1.count false = 1 := by
  have h := C9_concurrent_allow 1 2 "203.0.113.9" 3 5 [5, 5, 5]
    (by norm_num) (by norm_num) (by norm_num) (by simp)
    (by intro u hu; simpa using hu)
  simpa using h

/-- Reserve with unbounded willingness to wait (maxFutureReserve = ∞)
succeeds on a drained bucket with positive burst, computing the wait for the
missing fraction of a token. -/
theorem reserve_inf (lim : Limiter) (t : ℚ) (hpos : 0 < lim.limit)
    (hb : 1 ≤ lim.burst) (htok : lim.advance t < 1) :
    lim.reserveN1 t none
      = (true, (1 - lim.advance t) / lim.limit,
         { lim with tokens := lim.advance t - 1, last := t }) := by
  have h1 : lim.advance t - 1 < 0 := by linarith
  simp only [Limiter.reserveN1, if_neg (ne_of_gt hpos), h1, if_true,
    neg_sub]
  simp [hb]

/-- C6: whenever the rate-limit middleware denies a request, the response
has status 429 with the exact JSON body and carries a Retry-After value (as
a duration string) equal to the time until the next token would be
available — the least nonnegative delay after which the bucket again holds a
full token — and that value is never negative. -/
theorem C6_denial_response (lim : Limiter) (t : ℚ) (resp : RateLimitResponse)
    (hpos : 0 < lim.limit) (hb : 1 ≤ lim.burst) (hlast : lim.last ≤ t)
    (hden : (rateLimitCheck lim t).1 = some resp) :
    resp.status = 429 ∧ resp.contentType = "application/json" ∧
    resp.body = rateLimitBody ∧
    ∃ d : ℚ, resp.retryAfter = .durationStr d ∧ 0 ≤ d ∧
      1 ≤ lim.advance (t + d) ∧
      ∀ e : ℚ, 0 ≤ e → 1 ≤ lim.advance (t + e) → d ≤ e := by
  have hB1Q : (1 : ℚ) ≤ (lim.burst : ℚ) := by exact_mod_cast hb
  cases hA : (lim.allow t).1 with
  | true => simp [rateLimitCheck, hA] at hden
  | false =>
    have hadvlt : lim.advance t < 1 := by
      by_contra h
      push_neg at h
      rw [allow_succeeds _ _ (ne_of_gt hpos) hb h] at hA
      simp at hA
    have hallow : lim.allow t = (false, lim) := allow_fails _ _ hpos hadvlt
    have hres := reserve_inf lim t hpos hb hadvlt
    have h1 : (rateLimitCheck lim t).1
        = some { status := 429, contentType := "application/json",
                 body := rateLimitBody,
                 retryAfter := .durationStr ((1 - lim.advance t) / lim.limit) } := by
      simp [rateLimitCheck, hallow, hres]
    rw [h1] at hden
    obtain rfl := Option.some.inj hden
    refine ⟨rfl, rfl, rfl, (1 - lim.advance t) / lim.limit, rfl, ?_, ?_, ?_⟩
    · exact div_nonneg (by linarith) hpos.le
    · -- after exactly the advertised delay one full token is available
      have hd0 : 0 ≤ (1 - lim.advance t) / lim.limit :=
        div_nonneg (by linarith) hpos.le
      have hxeq : lim.advance t = lim.tokens + lim.limit * (t - lim.last) := by
        rcases min_cases (lim.tokens + lim.limit * (t - lim.last))
            ((lim.burst : ℚ)) with ⟨hmn, _⟩ | ⟨hmn, hgt⟩
        · rw [advance_of_last_le _ _ hlast, hmn]
        · exfalso
          rw [advance_of_last_le _ _ hlast, hmn] at hadvlt
          linarith
      rw [advance_of_last_le _ _ (by linarith)]
      have hmul : lim.limit * ((1 - lim.advance t) / lim.limit)
          = 1 - lim.advance t := by
        field_simp
      have harith : lim.tokens
            + lim.limit * (t + (1 - lim.advance t) / lim.limit - lim.last)
          = lim.advance t + lim.limit * ((1 - lim.advance t) / lim.limit) := by
        rw [hxeq]; ring
      rw [harith, hmul]
      rw [show lim.advance t + (1 - lim.advance t) = 1 by ring]
      rw [min_eq_left hB1Q]
    · -- and no shorter delay suffices
      intro e he h1e
      have hxeq : lim.advance t = lim.tokens + lim.limit * (t - lim.last) := by
        rcases min_cases (lim.tokens + lim.limit * (t - lim.last))
            ((lim.burst : ℚ)) with ⟨hmn, _⟩ | ⟨hmn, hgt⟩
        · rw [advance_of_last_le _ _ hlast, hmn]
        · exfalso
          rw [advance_of_last_le _ _ hlast, hmn] at hadvlt
          linarith
      rw [advance_of_last_le _ _ (by linarith)] at h1e
      have hle : 1 ≤ lim.tokens + lim.limit * (t + e - lim.last) :=
        le_trans h1e (min_le_left _ _)
      have hle2 : 1 - lim.advance t ≤ lim.limit * e := by
        have hexp : lim.limit * (t + e - lim.last)
            = lim.limit * (t - lim.last) + lim.limit * e := by ring
        rw [hexp] at hle
        rw [hxeq]
        linarith
      rw [div_le_iff₀ hpos]
      linarith [hle2, mul_comm lim.limit e]

/-- Witness for C6: a drained bucket (rps = 1, burst = 1) denies the request
at time 0 with status 429, the exact body, and Retry-After of one second. -/
theorem C6_denial_response_witness :
    ({ status := 429, contentType := "application/json",
       body := rateLimitBody,
       retryAfter := .durationStr 1 } : RateLimitResponse).status = 429 ∧
    ({ status := 429, contentType := "application/json",
       body := rateLimitBody,
       retryAfter := .durationStr 1 } : RateLimitResponse).contentType
        = "application/json" ∧
    ({ status := 429, contentType := "application/json",
       body := rateLimitBody,
       retryAfter := .durationStr 1 } : RateLimitResponse).body
        = rateLimitBody ∧
    ∃ d : ℚ,
      ({ status := 429, contentType := "application/json",
         body := rateLimitBody,
         retryAfter := .durationStr 1 } : RateLimitResponse).retryAfter
          = .durationStr d ∧ 0 ≤ d ∧
      1 ≤ Limiter.advance ⟨1, 1, 0, 0⟩ (0 + d) ∧
      ∀ e : ℚ, 0 ≤ e → 1 ≤ Limiter.advance ⟨1, 1, 0, 0⟩ (0 + e) → d ≤ e :=
  C6_denial_response ⟨1, 1, 0, 0⟩ 0 _ (by norm_num) (by norm_num)
    (by norm_num)
    (by norm_num [rateLimitCheck, Limiter.allow, Limiter.reserveN1,
      Limiter.advance, Limiter.cancelOwn])

/-! ## Claim theorems: tokens -/

/-- Truncating an integral rational recovers the integer. -/
theorem ratTrunc_intCast (n : ℤ) : ratTrunc (n : ℚ) = n := by
  unfold ratTrunc
  rw [Rat.num_intCast, Rat.den_intCast]
  simp [Int.tdiv_one]

/-- A token just issued has no claim-validation errors: its exp lies 24h
after issuance (and when that lands exactly on the epoch zero it is treated
as an absent expiry), and it carries no nbf claim. -/
theorem validateClaims_fresh (userID now : ℤ) :
    validateClaims (now : ℚ)
      [("sub", Json.num (userID : ℚ)), ("iat", Json.num (now : ℚ)),
       ("exp", Json.num ((now : ℚ) + 24 * 3600))] = [] := by
  by_cases hz : ((now : ℚ) + 24 * 3600) = 0
  · simp [validateClaims, parseNumericDate, List.lookup, hz]
  · simp [validateClaims, parseNumericDate, List.lookup, hz,
      show (now : ℚ) < (now : ℚ) + 24 * 3600 by linarith]

/-- C2: validating a token immediately after issuing it succeeds and returns
the same subject: ValidateToken(generateToken(subject)) = subject, for every
subject, secret and issuance time. -/
theorem C2_token_roundtrip (secret : String) (userID : ℤ) (now : ℤ) :
    ValidateToken secret (now : ℚ)
        (.wellFormed (generateToken secret userID now)) = .ok userID := by
  simp [ValidateToken, jwtParse, generateToken, hmacAlgs,
    validateClaims_fresh userID now, List.lookup, ratTrunc_intCast]

/-- C3: a token whose header claims a signing algorithm outside the HMAC
family (including "none") is rejected regardless of its payload and
signature content. -/
theorem C3_alg_substitution (secret : String) (now : ℚ) (t : JwtToken)
    (h : t.alg ∉ hmacAlgs) :
    ValidateToken secret now (.wellFormed t)
      = .error (.failedParse (.unverifiable t.alg)) := by
  simp [ValidateToken, jwtParse, h]

/-- Witness for C3: an alg = "none" token whose signature field would match
the server secret and content is still rejected. -/
theorem C3_alg_substitution_witness :
    ("none" ∉ hmacAlgs) ∧
    ValidateToken "server-secret" 0
        (.wellFormed ⟨"none", [("sub", .num 7)],
          some ("none", "server-secret", [("sub", .num 7)])⟩)
      = .error (.failedParse (.unverifiable "none")) :=
  ⟨by decide, C3_alg_substitution _ _ _ (by decide)⟩

/-! ## Claim theorems: client identity and health -/

/-- C5: the rate-limit identity is the X-Forwarded-For header value taken
verbatim when non-empty (not split into hops), else the X-Real-IP value when
non-empty, else the raw connection address. -/
theorem C5_client_ip_precedence (r : HttpRequest) :
    (r.xForwardedFor ≠ "" → getClientIP r = r.xForwardedFor) ∧
    (r.xForwardedFor = "" → r.xRealIP ≠ "" → getClientIP r = r.xRealIP) ∧
    (r.xForwardedFor = "" → r.xRealIP = "" →
      getClientIP r = r.remoteAddr) := by
  unfold getClientIP
  refine ⟨?_, ?_, ?_⟩ <;> intros <;> simp_all

/-- Witness for C5: a multi-hop X-Forwarded-For value is returned whole even
though X-Real-IP and the connection address are present. -/
theorem C5_client_ip_precedence_witness :
    getClientIP ⟨"203.0.113.7, 10.0.0.1", "198.51.100.2", "192.0.2.3:5555"⟩
      = "203.0.113.7, 10.0.0.1" :=
  (C5_client_ip_precedence _).1 (by decide)

/-- C10: GET /ready produces exactly the same response (status code, header,
body) as GET /healthz: 200 with status "ok" when the database ping succeeds,
503 with status "unhealthy" when it fails. -/
theorem C10_ready_equals_healthz (dbErr : Bool) :
    Ready dbErr = Healthz dbErr ∧
    Healthz false = { statusCode := 200,
                      contentType := "application/json",
                      body := { status := "ok", database := "ok" } } ∧
    Healthz true = { statusCode := 503,
                     contentType := "application/json",
                     body := { status := "unhealthy",
                               database := "unhealthy" } } :=
  ⟨rfl, rfl, rfl⟩

/-! ## Claim theorems: validation error classes -/

/-- The Expired error appears among the claim-validation errors exactly when
the exp claim parses to a date that is at or before now; the nbf checks
never contribute it. -/
theorem expired_mem_validateClaims (now : ℚ)
    (claims : List (String × Json)) :
    ClaimErr.expired ∈ validateClaims now claims
      ↔ ∃ q, parseNumericDate claims "exp" = .date q ∧ q ≤ now := by
  unfold validateClaims
  rcases hexp : parseNumericDate claims "exp" with _ | q | _ <;>
    rcases hnbf : parseNumericDate claims "nbf" with _ | p | _ <;>
      dsimp only <;> (try split_ifs) <;> simp_all [not_lt, not_le]

/-- Reduction of ValidateToken to its parse step. -/
theorem validateToken_eq (secret : String) (now : ℚ) (input : TokenInput) :
    ValidateToken secret now input
      = match jwtParse secret now input with
        | .error e => .error (.failedParse e)
        | .ok claims =>
          match claims.lookup "sub" with
          | some (.num q) => .ok (ratTrunc q)
          | _ => .error .invalidSubject := rfl

/-- C4 (amended): when validation fails it fails with exactly one of five
distinguishable error classes — MalformedToken for structurally invalid
input; BadSignature (as ErrTokenUnverifiable) for a wrong algorithm;
BadSignature (as ErrTokenSignatureInvalid) for a signature mismatch;
InvalidClaims when a present exp/nbf claim fails validation, which belongs
to the Expired class exactly when exp parses to a date at or before now;
and MissingSubject when the sub claim is absent or not a number. -/
theorem C4_error_classes_amended (secret : String) (now : ℚ)
    (input : TokenInput) (e : ValidateErr)
    (h : ValidateToken secret now input = .error e) :
    validateFailureClassified secret now input e := by
  cases input with
  | malformed =>
    left
    refine ⟨rfl, ?_⟩
    rw [validateToken_eq] at h
    simp [jwtParse] at h
    exact h.symm
  | wellFormed t =>
    by_cases halg : t.alg ∈ hmacAlgs
    · by_cases hsig : t.sig = some (t.alg, secret, t.claims)
      · rcases hvc : validateClaims now t.claims with _ | ⟨c, cs⟩
        · -- the claims validate; the only remaining failure is the subject
          have hjp : jwtParse secret now (.wellFormed t) = .ok t.claims := by
            simp [jwtParse, halg, hsig, hvc]
          rw [validateToken_eq, hjp] at h
          dsimp only at h
          right; right; right; right
          rcases hsub : t.claims.lookup "sub" with _ | j
          · rw [hsub] at h
            refine ⟨t, rfl, halg, hsig, hvc, ?_, ?_⟩
            · intro q; rw [hsub]; simp
            · simpa using h.symm
          · rw [hsub] at h
            cases j with
            | num q => simp at h
            | str s =>
              exact ⟨t, rfl, halg, hsig, hvc,
                by intro q; rw [hsub]; simp, by simpa using h.symm⟩
            | boolean b =>
              exact ⟨t, rfl, halg, hsig, hvc,
                by intro q; rw [hsub]; simp, by simpa using h.symm⟩
            | null =>
              exact ⟨t, rfl, halg, hsig, hvc,
                by intro q; rw [hsub]; simp, by simpa using h.symm⟩
        · -- some registered time claim failed to validate
          have hjp : jwtParse secret now (.wellFormed t)
              = .error (.invalidClaims (c :: cs)) := by
            simp [jwtParse, halg, hsig, hvc]
          rw [validateToken_eq, hjp] at h
          right; right; right; left
          refine ⟨t, rfl, halg, hsig, by rw [hvc]; simp, ?_, ?_⟩
          · rw [hvc]
            simpa using h.symm
          · exact expired_mem_validateClaims now t.claims
      · -- signature mismatch
        have hjp : jwtParse secret now (.wellFormed t)
            = .error .signatureInvalid := by
          simp [jwtParse, halg, hsig]
        rw [validateToken_eq, hjp] at h
        right; right; left
        refine ⟨t, rfl, halg, hsig, ?_⟩
        simpa using h.symm
    · -- wrong algorithm family
      have hjp : jwtParse secret now (.wellFormed t)
          = .error (.unverifiable t.alg) := by
        simp [jwtParse, halg]
      rw [validateToken_eq, hjp] at h
      right; left
      refine ⟨t, rfl, halg, ?_⟩
      simpa using h.symm

/-- Witness for the amended C4: structurally invalid input fails and is
classified as MalformedToken. -/
theorem C4_error_classes_amended_witness :
    validateFailureClassified "k" 0 .malformed (.failedParse .malformed) :=
  C4_error_classes_amended "k" 0 .malformed (.failedParse .malformed) rfl

/-- Counterexample to C4 as stated: a token signed with the correct secret
and algorithm whose exp claim is a string fails validation with the
invalid-claims/invalid-type error, which belongs to none of the four spec
classes (MalformedToken, BadSignature, Expired, MissingSubject). -/
theorem C4_error_classes_counterexample :
    ValidateToken "k" 0
        (.wellFormed ⟨"HS256", [("exp", .str "soon"), ("sub", .num 1)],
          some ("HS256", "k", [("exp", .str "soon"), ("sub", .num 1)])⟩)
      = .error (.failedParse (.invalidClaims [.invalidType "exp"])) ∧
    ¬ (isMalformedClass
          (.failedParse (.invalidClaims [.invalidType "exp"])) ∨
        isBadSignatureClass
          (.failedParse (.invalidClaims [.invalidType "exp"])) ∨
        isExpiredClass
          (.failedParse (.invalidClaims [.invalidType "exp"])) ∨
        isMissingSubjectClass
          (.failedParse (.invalidClaims [.invalidType "exp"]))) := by
  constructor
  · simp [ValidateToken, jwtParse, hmacAlgs, validateClaims,
      parseNumericDate, List.lookup]
  · intro hcl
    rcases hcl with hc | hc | hc | hc
    · simp [isMalformedClass] at hc
    · simp [isBadSignatureClass] at hc
    · simp [isExpiredClass] at hc
    · simp [isMissingSubjectClass] at hc

/-! ## Claim theorems: startup ping retry -/

/-- C7: startup verifies storage reachability with at most 5 probes; the
sleep after failed attempt j lasts j+1 seconds, so consecutive attempts are
separated by the linearly increasing backoff 1s, 2s, 3s, ... ; every probe
runs inside the overall 10-second timeout; the first successful probe
returns immediately; and when no probe succeeds (the retries are exhausted
or the timeout expires first) database.New surfaces the fatal error that
aborts startup. -/
theorem C7_startup_ping_retry (ping : ℕ → Bool) :
    (pingWithRetry ping).1 ≠ [] ∧
    (pingWithRetry ping).1.length ≤ 5 ∧
    (∀ j : ℕ, j + 1 < (pingWithRetry ping).1.length →
      (pingWithRetry ping).1[j+1]!
        = (pingWithRetry ping).1[j]! + ((j : ℚ) + 1)) ∧
    (∀ u ∈ (pingWithRetry ping).1, 0 ≤ u ∧ u < 10) ∧
    (ping 0 = true → pingWithRetry ping = ([0], .success)) ∧
    ((pingWithRetry ping).2 = .success →
      databaseNew ping = .ok () ∧
      ping ((pingWithRetry ping).1.length - 1) = true ∧
      ∀ j < (pingWithRetry ping).1.length - 1, ping j = false) ∧
    ((pingWithRetry ping).2 ≠ .success →
      databaseNew ping = .error "failed to ping database") := by
  rcases h0 : ping 0 with _ | _
  · rcases h1 : ping 1 with _ | _
    · rcases h2 : ping 2 with _ | _
      · rcases h3 : ping 3 with _ | _
        · -- all reachable attempts fail: the deadline fires during the
          -- fourth backoff sleep
          have hrun : pingWithRetry ping = ([0, 1, 3, 6], .ctxDone) := by
            norm_num [pingWithRetry, pingRetryGo, h0, h1, h2, h3]
          refine ⟨by rw [hrun]; simp, by rw [hrun]; simp, ?_, ?_, ?_, ?_, ?_⟩
          · intro j hj
            rw [hrun] at hj ⊢
            simp only [List.length_cons, List.length_nil] at hj
            have hj2 : j = 0 ∨ j = 1 ∨ j = 2 := by omega
            rcases hj2 with rfl | rfl | rfl <;> norm_num
          · intro u hu
            rw [hrun] at hu
            simp at hu
            rcases hu with rfl | rfl | rfl | rfl <;> norm_num
          · intro hping
            simp at hping
          · intro hs
            rw [hrun] at hs
            simp at hs
          · intro _
            simp [databaseNew, hrun]
        · have hrun : pingWithRetry ping = ([0, 1, 3, 6], .success) := by
            norm_num [pingWithRetry, pingRetryGo, h0, h1, h2, h3]
          refine ⟨by rw [hrun]; simp, by rw [hrun]; simp, ?_, ?_, ?_, ?_, ?_⟩
          · intro j hj
            rw [hrun] at hj ⊢
            simp only [List.length_cons, List.length_nil] at hj
            have hj2 : j = 0 ∨ j = 1 ∨ j = 2 := by omega
            rcases hj2 with rfl | rfl | rfl <;> norm_num
          · intro u hu
            rw [hrun] at hu
            simp at hu
            rcases hu with rfl | rfl | rfl | rfl <;> norm_num
          · intro hping
            simp at hping
          · intro _
            refine ⟨by simp [databaseNew, hrun], ?_, ?_⟩
            · rw [hrun]; simpa using h3
            · intro j hj
              rw [hrun] at hj
              simp at hj
              have hj2 : j = 0 ∨ j = 1 ∨ j = 2 := by omega
              rcases hj2 with rfl | rfl | rfl
              · exact h0
              · exact h1
              · exact h2
          · intro hs
            rw [hrun] at hs
            simp at hs
      · have hrun : pingWithRetry ping = ([0, 1, 3], .success) := by
          norm_num [pingWithRetry, pingRetryGo, h0, h1, h2]
        refine ⟨by rw [hrun]; simp, by rw [hrun]; simp, ?_, ?_, ?_, ?_, ?_⟩
        · intro j hj
          rw [hrun] at hj ⊢
          simp only [List.length_cons, List.length_nil] at hj
          have hj2 : j = 0 ∨ j = 1 := by omega
          rcases hj2 with rfl | rfl <;> norm_num
        · intro u hu
          rw [hrun] at hu
          simp at hu
          rcases hu with rfl | rfl | rfl <;> norm_num
        · intro hping
          simp at hping
        · intro _
          refine ⟨by simp [databaseNew, hrun], ?_, ?_⟩
          · rw [hrun]; simpa using h2
          · intro j hj
            rw [hrun] at hj
            simp at hj
            have hj2 : j = 0 ∨ j = 1 := by omega
            rcases hj2 with rfl | rfl
            · exact h0
            · exact h1
        · intro hs
          rw [hrun] at hs
          simp at hs
    · have hrun : pingWithRetry ping = ([0, 1], .success) := by
        norm_num [pingWithRetry, pingRetryGo, h0, h1]
      refine ⟨by rw [hrun]; simp, by rw [hrun]; simp, ?_, ?_, ?_, ?_, ?_⟩
      · intro j hj
        rw [hrun] at hj ⊢
        simp only [List.length_cons, List.length_nil] at hj
        have hj2 : j = 0 := by omega
        subst hj2
        norm_num
      · intro u hu
        rw [hrun] at hu
        simp at hu
        rcases hu with rfl | rfl <;> norm_num
      · intro hping
        simp at hping
      · intro _
        refine ⟨by simp [databaseNew, hrun], ?_, ?_⟩
        · rw [hrun]; simpa using h1
        · intro j hj
          rw [hrun] at hj
          simp at hj
          have hj2 : j = 0 := by omega
          subst hj2
          exact h0
      · intro hs
        rw [hrun] at hs
        simp at hs
  · have hrun : pingWithRetry ping = ([0], .success) := by
      norm_num [pingWithRetry, pingRetryGo, h0]
    refine ⟨by rw [hrun]; simp, by rw [hrun]; simp, ?_, ?_, ?_, ?_, ?_⟩
    · intro j hj
      rw [hrun] at hj
      simp at hj
    · intro u hu
      rw [hrun] at hu
      simp at hu
      rw [hu]
      norm_num
    · intro _
      exact hrun
    · intro _
      refine ⟨by simp [databaseNew, hrun], ?_, ?_⟩
      · rw [hrun]; simpa using h0
      · intro j hj
        rw [hrun] at hj
        simp at hj
    · intro hs
      rw [hrun] at hs
      simp at hs

/-- Witness for C7: with storage unreachable the full retry/backoff run ends
in the context deadline and New returns the fatal error. -/
theorem C7_startup_ping_retry_witness :
    databaseNew (fun _ => false) = .error "failed to ping database" := by
  have hrun : pingWithRetry (fun _ => false) = ([0, 1, 3, 6], .ctxDone) := by
    norm_num [pingWithRetry, pingRetryGo]
  exact (C7_startup_ping_retry (fun _ => false)).2.2.2.2.2.2
    (by rw [hrun]; simp)

/-! ## Claim theorems: auth handler error responses -/

/-- Counterexample to C8 as stated: when user creation fails with a raw
database driver error, the 500 response's message field carries the wrapped
driver error text verbatim — the same text written to the log — so the body
leaks internal details and is not distinct from the log record. -/
theorem C8_error_leak_counterexample :
    handlerRegister .validRequest .notFound (.ok ())
        (.dbErr "pq: connection refused")
      = some (respondWithError 500 "failed to register user"
          "failed to create user: pq: connection refused") ∧
    (respondWithError 500 "failed to register user"
        "failed to create user: pq: connection refused").body.message
      = "failed to create user: " ++ "pq: connection refused" ∧
    (respondWithError 500 "failed to register user"
        "failed to create user: pq: connection refused").body.message
      = (respondWithError 500 "failed to register user"
          "failed to create user: pq: connection refused").logErr :=
  ⟨rfl, rfl, rfl⟩

/-- C8 (amended): every error response from the Register path exposes one of
the four fixed short reasons in its error field (identical to the logged
message), but the body's message field is the internal error's text verbatim
— the same text recorded in the log record — and on the
internal-server-error path it embeds the raw database error string. -/
theorem C8_error_leak_amended (input : RegisterInput)
    (getByEmail : GetByEmailRes) (hashRes : Except String Unit)
    (createRes : CreateRes) (out : HandlerErrOut)
    (h : handlerRegister input getByEmail hashRes createRes = some out) :
    out.body.error ∈ registerReasons ∧
    out.logMsg = out.body.error ∧
    out.body.message = out.logErr ∧
    (input = .validRequest → getByEmail = .notFound → hashRes = .ok () →
      ∀ e, createRes = .dbErr e →
        out.body.message = "failed to create user: " ++ e) := by
  cases input with
  | badBody e =>
    simp only [handlerRegister, Option.some.injEq] at h
    subst h
    exact ⟨by simp [respondWithError, registerReasons], rfl, rfl,
      by intro h1; simp at h1⟩
  | invalid e =>
    simp only [handlerRegister, Option.some.injEq] at h
    subst h
    exact ⟨by simp [respondWithError, registerReasons], rfl, rfl,
      by intro h1; simp at h1⟩
  | validRequest =>
    cases getByEmail with
    | dbErr e =>
      simp only [handlerRegister, serviceRegister, Option.some.injEq] at h
      subst h
      exact ⟨by simp [respondWithError, registerReasons], rfl, rfl,
        by intro _ h2; simp at h2⟩
    | found =>
      simp only [handlerRegister, serviceRegister, Option.some.injEq] at h
      subst h
      exact ⟨by simp [respondWithError, registerReasons], rfl, rfl,
        by intro _ h2; simp at h2⟩
    | notFound =>
      cases hashRes with
      | error e =>
        simp only [handlerRegister, serviceRegister, Option.some.injEq] at h
        subst h
        exact ⟨by simp [respondWithError, registerReasons], rfl, rfl,
          by intro _ _ h3; simp at h3⟩
      | ok u =>
        cases createRes with
        | created =>
          simp [handlerRegister, serviceRegister] at h
        | alreadyExists =>
          simp only [handlerRegister, serviceRegister,
            Option.some.injEq] at h
          subst h
          exact ⟨by simp [respondWithError, registerReasons], rfl, rfl,
            by intro _ _ _ e2 h4; simp at h4⟩
        | dbErr e =>
          simp only [handlerRegister, serviceRegister,
            Option.some.injEq] at h
          subst h
          refine ⟨by simp [respondWithError, registerReasons], rfl, rfl, ?_⟩
          intro _ _ _ e2 h4
          injection h4 with he
          subst he
          rfl

/-- Witness for the amended C8: the 500 response for a failed user creation
sends the client the same internal error text that is logged. -/
theorem C8_error_leak_amended_witness :
    (respondWithError 500 "failed to register user"
        "failed to create user: pq: connection refused").body.message
      = (respondWithError 500 "failed to register user"
          "failed to create user: pq: connection refused").logErr :=
  (C8_error_leak_amended .validRequest .notFound (.ok ())
    (.dbErr "pq: connection refused") _ rfl).2.2.1

end GoStarter
